import Mathlib

set_option maxHeartbeats 1000000
set_option maxRecDepth 4000
set_option linter.unusedVariables false

/-!
Verification development for the `openzeppelin-upgrades` deterministic-deployment
plugin sources (`packages/plugin-hardhat/src/utils/create2-deployer.ts` and
`packages/plugin-hardhat/src/deploy-proxy.ts`).

The TypeScript code is shallowly embedded: strings stay strings (modelled by
their character lists), machine words are `Nat` with explicit reduction
modulo `2 ^ 64`, stateful/async code becomes explicit state passing returning
an event trace together with an `Except` result.  `ethers.utils.keccak256`
and `ethers.utils.id` are embedded by a full executable Keccak-256.
-/

namespace OZ

/-! ## Keccak-256 (the hash behind `ethers.utils.keccak256` / `ethers.utils.id`) -/

/-- The constant 2 ^ 64, the lane modulus of Keccak-f[1600]. -/
def w64 : Nat := 18446744073709551616

/-- Rotate a 64-bit lane left by `n` (for `0 ≤ n < 64`). -/
def rol64 (x n : Nat) : Nat :=
  ((x <<< n) % w64) ||| (x >>> (64 - n))

/-- Rho rotation offsets, row by row (`y = 0` to `4`), indexed after
flattening by lane index `x + 5 * y`. -/
def rhoOffsets : List Nat :=
  [[0, 1, 62, 28, 27],
   [36, 44, 6, 55, 20],
   [3, 10, 43, 25, 39],
   [41, 45, 15, 21, 8],
   [18, 2, 61, 56, 14]].flatten

/-- For each destination lane index of the combined rho/pi step, the source
lane index: destination `y + 5 * ((2x + 3y) % 5)` receives lane `x + 5y`. -/
def piSource : List Nat :=
  [0, 6, 12, 18, 24,
   3, 9, 10, 16, 22,
   1, 7, 13, 19, 20,
   4, 5, 11, 17, 23,
   2, 8, 14, 15, 21]

/-- Round constants of Keccak-f[1600], written in decimal (the usual hex
renderings are 0x0000000000000001, 0x0000000000008082, 0x800000000000808A
and so on, as in FIPS 202). -/
def roundConstants : List Nat :=
  [1, 32898, 9223372036854808714,
   9223372039002292224, 32907, 2147483649,
   9223372039002292353, 9223372036854808585, 138,
   136, 2147516425, 2147483658,
   2147516555, 9223372036854775947, 9223372036854808713,
   9223372036854808579, 9223372036854808578, 9223372036854775936,
   32778, 9223372039002259466, 9223372039002292353,
   9223372036854808704, 2147483649, 9223372039002292232]

/-- Theta step of Keccak-f. -/
def theta (A : List Nat) : List Nat :=
  let C := (List.range 5).map fun x =>
    A.getD x 0 ^^^ A.getD (x + 5) 0 ^^^ A.getD (x + 10) 0 ^^^
      A.getD (x + 15) 0 ^^^ A.getD (x + 20) 0
  let D := (List.range 5).map fun x =>
    C.getD ((x + 4) % 5) 0 ^^^ rol64 (C.getD ((x + 1) % 5) 0) 1
  (List.range 25).map fun i => A.getD i 0 ^^^ D.getD (i % 5) 0

/-- Combined rho and pi steps of Keccak-f. -/
def rhoPi (A : List Nat) : List Nat :=
  piSource.map fun s => rol64 (A.getD s 0) (rhoOffsets.getD s 0)

/-- Chi step of Keccak-f. -/
def chi (B : List Nat) : List Nat :=
  (List.range 25).map fun i =>
    let x := i % 5
    let y := i / 5
    B.getD i 0 ^^^ ((B.getD ((x + 1) % 5 + 5 * y) 0 ^^^ (w64 - 1)) &&& B.getD ((x + 2) % 5 + 5 * y) 0)

/-- One round of Keccak-f[1600]: theta, rho, pi, chi, iota. -/
def keccakRound (A : List Nat) (rc : Nat) : List Nat :=
  match chi (rhoPi (theta A)) with
  | [] => []
  | b0 :: rest => (b0 ^^^ rc) :: rest

/-- The full 24-round Keccak-f[1600] permutation on a 25-lane state. -/
def keccakF (A : List Nat) : List Nat :=
  roundConstants.foldl keccakRound A

/-- A little-endian 64-bit lane from up to 8 bytes. -/
def laneOfBytes (bs : List Nat) : Nat :=
  bs.foldr (fun b acc => b + 256 * acc) 0

/-- The 17 rate lanes of a 136-byte block. -/
def lanesOfBlock (block : List Nat) : List Nat :=
  (List.range 17).map fun i => laneOfBytes ((block.drop (8 * i)).take 8)

/-- XOR a block's rate lanes into a 25-lane state. -/
def xorBlock (st block : List Nat) : List Nat :=
  (List.range 25).map fun i => st.getD i 0 ^^^ (lanesOfBlock block).getD i 0

/-- Multi-rate padding `10*1` with the Keccak (pre-SHA-3) domain byte `0x01`,
to a multiple of the 136-byte rate. -/
def pad101 (msg : List Nat) : List Nat :=
  let padLen := 136 - msg.length % 136
  if padLen = 1 then msg ++ [0x81]
  else msg ++ 0x01 :: List.replicate (padLen - 2) 0 ++ [0x80]

/-- Split a byte list into 136-byte blocks; `fuel` bounds the recursion and any
value of at least `l.length` is enough. -/
def blocks136 (fuel : Nat) (l : List Nat) : List (List Nat) :=
  match fuel, l with
  | 0, _ => []
  | _, [] => []
  | f + 1, l => l.take 136 :: blocks136 f (l.drop 136)

/-- Absorb a list of 136-byte blocks into the sponge state. -/
def absorbBlocks (st : List Nat) : List (List Nat) → List Nat
  | [] => st
  | b :: bs => absorbBlocks (keccakF (xorBlock st b)) bs

/-- Read the first 32 output bytes (little-endian per lane) from the state. -/
def squeeze256 (st : List Nat) : List Nat :=
  ((List.range 4).map fun i => (List.range 8).map fun j => st.getD i 0 >>> (8 * j) % 256).flatten

/-- Keccak-256 of a byte sequence (the legacy Keccak padding used by Ethereum,
not NIST SHA-3). -/
def keccak256 (msg : List Nat) : List Nat :=
  squeeze256 (absorbBlocks (List.replicate 25 0) (blocks136 (msg.length + 1) (pad101 msg)))

/-! ## Hex strings, UTF-8, and the `ethers.utils` helpers the source uses -/

/-- Lowercase hex digit for `n < 16`. -/
def hexChar (n : Nat) : Char :=
  if n < 10 then Char.ofNat (48 + n) else Char.ofNat (87 + n)

/-- Lowercase hex rendering of a byte list (no `0x`). -/
def hexOfBytes (bs : List Nat) : List Char :=
  bs.flatMap fun b => [hexChar (b / 16), hexChar (b % 16)]

/-- Numeric value of a hex digit (`0-9`, `a-f`, `A-F`). -/
def hexVal (c : Char) : Nat :=
  if c.toNat ≥ 97 then c.toNat - 87
  else if c.toNat ≥ 65 then c.toNat - 55
  else c.toNat - 48

/-- Bytes of a hex digit sequence (no `0x`), consumed two digits at a time.
The reduction modulo 256 is the identity on hex-digit pairs; it only
totalizes the inputs on which `ethers` would throw an invalid-hex error. -/
def bytesOfHex : List Char → List Nat
  | c1 :: c2 :: rest => (16 * hexVal c1 + hexVal c2) % 256 :: bytesOfHex rest
  | _ => []

/-- UTF-8 encoding of one character. -/
def utf8Char (c : Char) : List Nat :=
  let n := c.toNat
  if n < 128 then [n]
  else if n < 2048 then [192 + n / 64, 128 + n % 64]
  else if n < 65536 then [224 + n / 4096, 128 + n / 64 % 64, 128 + n % 64]
  else [240 + n / 262144, 128 + n / 4096 % 64, 128 + n / 64 % 64, 128 + n % 64]

/-- UTF-8 bytes of a string (`ethers.utils.toUtf8Bytes`). -/
def utf8Bytes (s : String) : List Nat :=
  s.data.flatMap utf8Char

/-- Model of JavaScript `String.prototype.slice(n)` for `n ≥ 0`. -/
def sliceFrom (s : String) (n : Nat) : String :=
  ⟨s.data.drop n⟩

/-- Model of JavaScript `String.prototype.slice(-n)`: the last `n` characters. -/
def sliceLast (s : String) (n : Nat) : String :=
  ⟨s.data.drop (s.data.length - n)⟩

/-- Model of JavaScript `String.prototype.toLowerCase()` on ASCII data. -/
def lowerStr (s : String) : String :=
  ⟨s.data.map Char.toLower⟩

/-- Model of `x.replace(/0x/, '')`: remove the first occurrence of `0x`. -/
def drop0xFirst : List Char → List Char
  | [] => []
  | '0' :: 'x' :: rest => rest
  | c :: rest => c :: drop0xFirst rest

/-- Model of `ethers.utils.keccak256` on a `0x`-prefixed hex string: hash the
encoded bytes and render the 32-byte digest as a `0x`-prefixed hex string. -/
def keccak256hex (s : String) : String :=
  ⟨'0' :: 'x' :: hexOfBytes (keccak256 (bytesOfHex (s.data.drop 2)))⟩

/-- Model of `ethers.utils.id`: Keccak-256 of the UTF-8 bytes of a text string,
as a `0x`-prefixed hex string. -/
def idHash (s : String) : String :=
  ⟨'0' :: 'x' :: hexOfBytes (keccak256 (utf8Bytes s))⟩

/-! ## ABI values and `encodeParams`

The source hands `defaultAbiCoder.encode` loosely-typed `any[]` arrays; the
orchestrator only ever encodes `address` and `bytes` values, modelled by `Val`.
-/

/-- An ABI value as used by the orchestrator: an address (`0x` + 40 hex digits)
or a dynamic byte string (`0x`-prefixed hex). -/
inductive Val
  | addr (a : String)
  | bytes (b : String)
deriving DecidableEq

/-- A 32-byte big-endian word. -/
def word32 (n : Nat) : List Nat :=
  (List.range 32).map fun i => n >>> (8 * (31 - i)) % 256

/-- Right-pad a byte list with zeros to a multiple of 32 bytes. -/
def padRight32 (bs : List Nat) : List Nat :=
  bs ++ List.replicate ((32 - bs.length % 32) % 32) 0

/-- One step of the ABI head/tail encoder: `address` appends a left-padded
static word to the head, `bytes` is dynamic (offset word in the head, length
word plus padded data in the tail). -/
def abiStep (base : Nat) (acc : List Nat × List Nat) (v : Val) : List Nat × List Nat :=
  match v with
  | .addr a => (acc.1 ++ (List.replicate 12 0 ++ bytesOfHex (a.data.drop 2)), acc.2)
  | .bytes b =>
      let d := bytesOfHex (b.data.drop 2)
      (acc.1 ++ word32 (base + acc.2.length), acc.2 ++ word32 d.length ++ padRight32 d)

/-- Standard ABI head/tail encoding of a value list: the heads followed by the
tails, with dynamic offsets relative to the start of the encoding. -/
def abiEnc (vs : List Val) : List Nat :=
  let r := vs.foldl (abiStep (32 * vs.length)) ([], [])
  r.1 ++ r.2

/-- Embedding of `encodeParams` (`create2-deployer.ts`):
`defaultAbiCoder.encode(dataTypes, data)` as a `0x`-prefixed hex string.  The
encoder is driven by the shape of the `Val` arguments, which the orchestrator
always passes in agreement with `dataTypes` (`address`/`bytes`). -/
def encodeParams (dataTypes : List String) (data : List Val) : String :=
  ⟨'0' :: 'x' :: hexOfBytes (abiEnc data)⟩

/-! ## `create2-deployer.ts` -/

/-- A `salt` argument: the source's `string | number` union. -/
inductive Salt
  | str (s : String)
  | num (n : Nat)
deriving DecidableEq

/-- JavaScript `salt.toString()`. -/
def Salt.toStr : Salt → String
  | .str s => s
  | .num n => toString n

/-- Embedding of `buildBytecode`: creation bytecode concatenated with the ABI
encoding of the constructor arguments (its `0x` sliced off). -/
def buildBytecode (constructorTypes : List String) (constructorArgs : List Val)
    (contractBytecode : String) : String :=
  contractBytecode ++ sliceFrom (encodeParams constructorTypes constructorArgs) 2

/-- Embedding of `buildCreate2Address`: keccak of
`0xff ++ factoryAddress ++ saltHex ++ keccak(byteCode)` (each part with its
first `0x` removed), keeping the last 40 hex digits, lowercased. -/
def buildCreate2Address (factoryAddress saltHex byteCode : String) : String :=
  let parts : List String := ["ff", factoryAddress, saltHex, keccak256hex byteCode]
  let joined : List Char := (parts.map fun x => drop0xFirst x.data).flatten
  lowerStr ⟨'0' :: 'x' :: (sliceLast (keccak256hex ⟨'0' :: 'x' :: joined⟩) 40).data⟩

/-- Embedding of `saltToHex`: `ethers.utils.id(salt.toString())`. -/
def saltToHex (salt : Salt) : String :=
  idHash salt.toStr

/-- Embedding of `getCreate2Address` (the pure, standalone address query). -/
def getCreate2Address (factoryAddress : String) (salt : Salt) (contractBytecode : String)
    (constructorTypes : List String) (constructorArgs : List Val) : String :=
  buildCreate2Address factoryAddress (saltToHex salt)
    (buildBytecode constructorTypes constructorArgs contractBytecode)

/-! ## Effect model

Async/stateful TypeScript becomes explicit state passing: every network
operation appends an `Event` to a trace, and every awaited external call's
outcome is supplied by an `Env` record of collaborator behaviours.  A thrown
exception is an `Except.error`. -/

/-- The observable effects the claims talk about. -/
inductive Event
  | create2Submitted (salt : Salt) (contractBytecode : String)
      (constructorTypes : List String) (constructorArgs : List Val)
  | txConfirmed (hash : String)
  | deploySubmitted (args : List Val)
  | adminFetched (address : String)
  | warned (msg : String)
  | manifestAppended (kind : String) (address : String)
deriving DecidableEq

deriving instance DecidableEq for Except

/-- An awaited transaction handle: its hash and the outcome of `.wait()`. -/
structure Tx where
  hash : String
  wait : Except String Unit
deriving DecidableEq

/-- A create2 factory contract handle (the `factory` of `deployContract`):
its address and the outcome of `factory.deploy(bytecode, saltHex)`. -/
structure Create2Factory where
  address : String
  deploy : String → String → Except String Tx

/-- The record `deployContract` resolves with: `{ address, txHash, deployTransaction }`. -/
structure DeployResult where
  address : String
  txHash : String
  deployTransaction : Tx
deriving DecidableEq

/-- Embedding of `deployContract` (`create2-deployer.ts`): compute the salt hex
and init code, compute the create2 address locally, submit
`factory.deploy(bytecode, saltHex)`, and resolve with the record — without
awaiting on-chain confirmation of the submitted transaction. -/
def deployContract (salt : Salt) (factory : Create2Factory) (contractBytecode : String)
    (constructorTypes : List String) (constructorArgs : List Val) :
    List Event × Except String DeployResult :=
  let saltHex := saltToHex salt
  let bytecode := buildBytecode constructorTypes constructorArgs contractBytecode
  let address := getCreate2Address factory.address salt contractBytecode
    constructorTypes constructorArgs
  match factory.deploy bytecode saltHex with
  | .error e => ([], .error e)
  | .ok tx =>
      ([.create2Submitted salt contractBytecode constructorTypes constructorArgs],
        .ok ⟨address, tx.hash, tx⟩)

/-! ## `deploy-proxy.ts` -/

/-- The contract interface of a factory, able to encode a function call. -/
structure Iface where
  encodeFunctionData : String → List String → String

/-- A hardhat `ContractFactory`: creation bytecode plus its interface. -/
structure ContractFactory where
  bytecode : String
  interface : Iface

/-- The `initializer` option: a function name, or `false` to disable. -/
inductive Initializer
  | name (s : String)
  | disabled
deriving DecidableEq

/-- The recognized `DeployProxyOptions` fields the orchestrator reads. -/
structure DeployProxyOptions where
  kind : Option String := none
  initializer : Option Initializer := none
  deployFactory : Option Create2Factory := none
  deployFactorySalt : Option Salt := none

/-- The source's union argument `args?: unknown[] | DeployProxyOptions`. -/
inductive ArgsOrOpts
  | args (l : List String)
  | opts (o : DeployProxyOptions)

/-- The error thrown by the orchestrator: the distinct
`BeaconProxyUnsupportedError`, or a propagated collaborator failure. -/
inductive DeployErr
  | beaconProxyUnsupported
  | collab (msg : String)
deriving DecidableEq

/-- The returned attached instance: address of the proxy plus the deployment
transaction handle. -/
structure ContractInstance where
  address : String
  deployTransaction : Tx
deriving DecidableEq

/-- Behaviour of the external collaborators a `deployProxy` call awaits:
`Manifest.forNetwork`, `deployProxyImpl`, `manifest.getAdmin`,
`fetchOrDeployAdmin`, the proxy contract factories, `deploy`, and
`manifest.addProxy`. -/
structure Env where
  forNetwork : Except String Unit
  deployProxyImplAddr : Except String String
  getAdmin : Except String (Option String)
  fetchAdmin : Except String String
  proxyFactory : ContractFactory
  transparentProxyFactory : ContractFactory
  ordinaryDeploy : Except String DeployResult
  addProxy : Except String Unit

/-- Modelled from the spec: `getInitializerData` lives in `./utils`, which is
not under `src/`.  Per the spec it computes "initializer call data from the
interface, arguments, and chosen initializer name (or no-op if `initializer`
is disabled)". -/
def getInitializerData (contractInterface : Iface) (args : List String)
    (initializer : Option Initializer) : String :=
  match initializer with
  | some .disabled => "0x"
  | some (.name n) => contractInterface.encodeFunctionData n args
  | none => contractInterface.encodeFunctionData "initialize" args

/-- Modelled from the spec: `deployProxyImpl` lives in `./utils`, which is not
under `src/`.  Per the spec it resolves the proxy `kind`, which "defaults to
transparent" when the deterministic-deployment path has not overridden it. -/
def deployProxyImplKind (opts : DeployProxyOptions) : String :=
  opts.kind.getD "transparent"

/-- Embedding of `deployProxy` (`deploy-proxy.ts`).  Returns the trace of
observable events together with the result (a thrown error or the attached
contract instance). -/
def deployProxy (env : Env) (ImplFactory : ContractFactory)
    (argsOrOpts : ArgsOrOpts) (opts0 : DeployProxyOptions) :
    List Event × Except DeployErr ContractInstance :=
  -- `if (!Array.isArray(args)) { opts = args; args = []; }`
  let p : List String × DeployProxyOptions :=
    match argsOrOpts with
    | .args a => (a, opts0)
    | .opts o => ([], o)
  let args := p.1
  let opts := p.2
  -- `const manifest = await Manifest.forNetwork(provider);`
  match env.forNetwork with
  | .error e => ([], .error (.collab e))
  | .ok () =>
  -- implementation stage
  let implStage : List Event × Except DeployErr (String × String) :=
    match opts.deployFactory, opts.deployFactorySalt with
    | some deployFactory, some deployFactorySalt =>
        -- deterministic path: `kind = opts.kind ?? 'uups'`
        let kind := opts.kind.getD "uups"
        let bytecode := ImplFactory.bytecode
        let contractAddress := getCreate2Address deployFactory.address deployFactorySalt
          bytecode [] []
        match deployContract deployFactorySalt deployFactory bytecode [] [] with
        | (tr, .error e) => (tr, .error (.collab e))
        | (tr, .ok contractDeployment) =>
            -- `await contractDeployment.deployTransaction.wait();`
            match contractDeployment.deployTransaction.wait with
            | .error e => (tr, .error (.collab e))
            | .ok () =>
                (tr ++ [.txConfirmed contractDeployment.txHash], .ok (contractAddress, kind))
    | df, ds =>
        -- ordinary path: `const deployedImpl = await deployProxyImpl(...)`
        match env.deployProxyImplAddr with
        | .error e => ([], .error (.collab e))
        | .ok impl => ([], .ok (impl, deployProxyImplKind opts))
  match implStage with
  | (tr₁, .error e) => (tr₁, .error e)
  | (tr₁, .ok (impl, kind)) =>
  -- `const data = getInitializerData(contractInterface, args, opts.initializer);`
  let data := getInitializerData ImplFactory.interface args opts.initializer
  -- uups advisory warning
  let warnStage : List Event × Except DeployErr Unit :=
    if kind = "uups" then
      match env.getAdmin with
      | .error e => ([], .error (.collab e))
      | .ok (some _) =>
          ([.warned "A proxy admin was previously deployed on this network"], .ok ())
      | .ok none => ([], .ok ())
    else ([], .ok ())
  match warnStage with
  | (tr₂, .error e) => (tr₁ ++ tr₂, .error e)
  | (tr₂, .ok ()) =>
  -- `switch (kind)`: `kind` ranges over the plugin's closed union
  -- `uups | transparent | beacon` (the type of `opts.kind` and of the kind
  -- resolved by `deployProxyImpl`), so the remaining branch is the
  -- `case 'transparent'` of the source.
  let switchStage : List Event × Except DeployErr (ContractFactory × List Val × List String) :=
    if kind = "beacon" then ([], .error .beaconProxyUnsupported)
    else if kind = "uups" then
      ([], .ok (env.proxyFactory, [.addr impl, .bytes data], ["address", "bytes"]))
    else
      -- transparent: `fetchOrDeployAdmin(provider, () => deploy(AdminFactory))`
      match env.fetchAdmin with
      | .error e => ([], .error (.collab e))
      | .ok adminAddress =>
          ([.adminFetched adminAddress],
            .ok (env.transparentProxyFactory,
              [.addr impl, .addr adminAddress, .bytes data],
              ["address", "address", "bytes"]))
  match switchStage with
  | (tr₃, .error e) => (tr₁ ++ tr₂ ++ tr₃, .error e)
  | (tr₃, .ok (ProxyFactory, proxyFactoryArgs, proxyFactoryConstructorArgTypes)) =>
  -- proxy creation: ordinary `deploy(...)` or deterministic `deployContract(...)`
  let proxyStage : List Event × Except DeployErr DeployResult :=
    match opts.deployFactory, opts.deployFactorySalt with
    | some deployFactory, some deployFactorySalt =>
        match deployContract deployFactorySalt deployFactory ProxyFactory.bytecode
            proxyFactoryConstructorArgTypes proxyFactoryArgs with
        | (tr, .error e) => (tr, .error (.collab e))
        | (tr, .ok d) => (tr, .ok d)
    | _, _ =>
        match env.ordinaryDeploy with
        | .error e => ([], .error (.collab e))
        | .ok d => ([.deploySubmitted proxyFactoryArgs], .ok d)
  match proxyStage with
  | (tr₄, .error e) => (tr₁ ++ tr₂ ++ tr₃ ++ tr₄, .error e)
  | (tr₄, .ok proxyDeployment) =>
  -- `await manifest.addProxy(proxyDeployment);`
  match env.addProxy with
  | .error e => (tr₁ ++ tr₂ ++ tr₃ ++ tr₄, .error (.collab e))
  | .ok () =>
      (tr₁ ++ tr₂ ++ tr₃ ++ tr₄ ++ [.manifestAppended kind proxyDeployment.address],
        .ok ⟨proxyDeployment.address, proxyDeployment.deployTransaction⟩)

/-- The `{}` default of the third parameter of `deployProxy`. -/
def defaultOpts : DeployProxyOptions := {}

/-- The warning events the uups advisory block emits for a given
`manifest.getAdmin()` answer. -/
def warnEvents (ao : Option String) : List Event :=
  match ao with
  | some _ => [.warned "A proxy admin was previously deployed on this network"]
  | none => []

/-- The kinds of the manifest-append events of a trace, in order. -/
def appendedKinds (t : List Event) : List String :=
  t.filterMap fun e => match e with | .manifestAppended k _ => some k | _ => none

/-- Whether an event is a creation-transaction submission (ordinary or
deterministic). -/
def isSubmission : Event → Bool
  | .deploySubmitted _ => true
  | .create2Submitted _ _ _ _ => true
  | _ => false

/-- Whether an event is a manifest append. -/
def isAppend : Event → Bool
  | .manifestAppended _ _ => true
  | _ => false

/-- Holds of a trace when any final manifest append is immediately preceded
by a creation-transaction submission (the proxy creation submission). -/
def appendAfterSubmission (t : List Event) : Bool :=
  match t.getLast? with
  | some (.manifestAppended _ _) =>
      match t.dropLast.getLast? with
      | some e => isSubmission e
      | none => false
  | _ => true

/-! ## Concrete collaborator fixtures shared by witnesses and counterexamples -/

/-- A create2 factory whose `deploy` call always succeeds, handing back a
transaction hash that distinguishes the implementation init code `0x6080`
from any other submitted init code. -/
def tFactory : Create2Factory :=
  ⟨"0xffffffffffffffffffffffffffffffffffffffff",
   fun bc _ => .ok ⟨if bc = "0x6080" then "0xtximpl" else "0xtxproxy", .ok ()⟩⟩

/-- An interface whose function-data encoder is a constant. -/
def tIface : Iface := ⟨fun n as => "0xdata"⟩

/-- An implementation contract factory with creation bytecode `0x6080`. -/
def tImplFactory : ContractFactory := ⟨"0x6080", tIface⟩

/-- Options selecting the deterministic path with the default (absent) kind. -/
def c3opts : DeployProxyOptions :=
  { deployFactory := some tFactory, deployFactorySalt := some (.str "s") }

/-- An environment in which every collaborator succeeds and an admin is
already recorded in the manifest. -/
def tEnv : Env :=
  { forNetwork := .ok ()
    deployProxyImplAddr := .ok "0ximpl"
    getAdmin := .ok (some "0xadmin")
    fetchAdmin := .ok "0xadmin"
    proxyFactory := ⟨"0xproxybc", tIface⟩
    transparentProxyFactory := ⟨"0xtransbc", tIface⟩
    ordinaryDeploy := .ok ⟨"0xproxyaddr", "0xtxord", ⟨"0xtxord", .ok ()⟩⟩
    addProxy := .ok () }

/-- An environment whose very first collaborator call fails. -/
def tEnvFail : Env := { tEnv with forNetwork := .error "netdown" }

/-! ## The specification-side address computation (for claim C1) -/

/-- The shape `ethers` accepts as a `BytesLike` hex string argument: a `0x`
head followed by an even number of digits.  Only the head and the even count
matter for the refinement proof. -/
def isHexShaped (s : String) : Prop :=
  s.data.take 2 = ['0', 'x'] ∧ (s.data.length - 2) % 2 = 0

instance (s : String) : Decidable (isHexShaped s) := by
  unfold isHexShaped
  infer_instance

/-- The address computation in the specification's words: the low-order
20 bytes of keccak256 over the concatenation of the single byte `0xff`, the
factory address, the hash-normalized salt (the 32-byte keccak hash of the
salt's string representation), and keccak256 of the init code, where the
init code is the creation bytecode followed by the ABI encoding of the
constructor arguments. -/
def specCreate2Address (factoryAddress : String) (salt : Salt) (contractBytecode : String)
    (constructorTypes : List String) (constructorArgs : List Val) : String :=
  let initCode : List Nat :=
    bytesOfHex (contractBytecode.data.drop 2) ++ abiEnc constructorArgs
  let saltBytes : List Nat := keccak256 (utf8Bytes salt.toStr)
  let digest : List Nat :=
    keccak256 (0xff :: bytesOfHex (factoryAddress.data.drop 2) ++ saltBytes ++
      keccak256 initCode)
  ⟨'0' :: 'x' :: hexOfBytes (digest.drop 12)⟩

/-- Witness for C4: a concrete successful `deployContract` call. -/
def wRes : DeployResult :=
  ⟨getCreate2Address tFactory.address (.str "s") "0x6080" [] [], "0xtximpl",
    ⟨"0xtximpl", .ok ()⟩⟩

/-- A raw 32-byte salt value, as a `0x`-prefixed 64-hex-digit string. -/
def raw32Salt : String :=
  "0x0000000000000000000000000000000000000000000000000000000000000000"

/-- Options requesting a beacon proxy through the deterministic path. -/
def c2opts : DeployProxyOptions :=
  { kind := some "beacon", deployFactory := some tFactory, deployFactorySalt := some (.str "s") }

/-! ## Basic lemmas about the byte/hex layer -/

/-! ## Test vectors pinning the embedding of the hashes to the real ones -/

/-- Keccak-256 of the empty input, the well-known Ethereum constant
`0xc5d2460186f7233c907e2db2dcc703c0e500b653ca82273b7bfad8045d85a470`. -/
theorem keccak256_empty_vector :
    keccak256 [] = [197, 210, 70, 1, 134, 247, 35, 60, 146, 126, 125, 178, 220, 199, 3, 192,
      229, 0, 182, 83, 202, 130, 39, 59, 123, 250, 216, 4, 93, 133, 164, 112] := by
  decide

/-- Keccak-256 of `"abc"`, the standard vector
`0x4e03657aea45a94fc7d47ba826c8d667c0d1e6e33a64a036ec44f58fa12d6c45`. -/
theorem keccak256_abc_vector :
    keccak256 [97, 98, 99] = [78, 3, 101, 122, 234, 69, 169, 79, 199, 212, 123, 168, 38, 200,
      214, 103, 192, 209, 230, 227, 58, 100, 160, 54, 236, 68, 245, 143, 161, 45, 108, 69] := by
  decide

/-- The EIP-1014 example: factory `0x00000000000000000000000000000000deadbeef`,
salt `0x…cafebabe`, init code `0xdeadbeef` give
`0x60f3f640a8508fc6a86d45df051962668e1e8ac7`. -/
theorem buildCreate2Address_eip1014_vector :
    buildCreate2Address "0x00000000000000000000000000000000deadbeef"
      "0x00000000000000000000000000000000000000000000000000000000cafebabe"
      "0xdeadbeef" = "0x60f3f640a8508fc6a86d45df051962668e1e8ac7" := by
  decide

/-! ## Basic lemmas about the byte/hex layer -/

theorem hexOfBytes_nil : hexOfBytes [] = [] := rfl

theorem hexOfBytes_cons (b : Nat) (rest : List Nat) :
    hexOfBytes (b :: rest) = hexChar (b / 16) :: hexChar (b % 16) :: hexOfBytes rest := by
  simp [hexOfBytes]

theorem bytesOfHex_nil : bytesOfHex [] = [] := rfl

theorem bytesOfHex_one (c : Char) : bytesOfHex [c] = [] := rfl

theorem bytesOfHex_cons2 (c1 c2 : Char) (rest : List Char) :
    bytesOfHex (c1 :: c2 :: rest) = (16 * hexVal c1 + hexVal c2) % 256 :: bytesOfHex rest := rfl

theorem hexOfBytes_length (bs : List Nat) : (hexOfBytes bs).length = 2 * bs.length := by
  induction bs with
  | nil => rfl
  | cons b rest ih => rw [hexOfBytes_cons]; simp only [List.length_cons, ih]; omega

theorem hexOfBytes_append (a b : List Nat) :
    hexOfBytes (a ++ b) = hexOfBytes a ++ hexOfBytes b := by
  simp [hexOfBytes]

theorem bytesOfHex_lt : ∀ l : List Char, ∀ b ∈ bytesOfHex l, b < 256
  | [] => by simp [bytesOfHex_nil]
  | [c] => by simp [bytesOfHex_one]
  | c1 :: c2 :: rest => by
      rw [bytesOfHex_cons2]
      intro b hb
      rcases List.mem_cons.mp hb with h | h
      · subst h; exact Nat.mod_lt _ (by omega)
      · exact bytesOfHex_lt rest b h

theorem bytesOfHex_append : ∀ l₁ l₂ : List Char, l₁.length % 2 = 0 →
    bytesOfHex (l₁ ++ l₂) = bytesOfHex l₁ ++ bytesOfHex l₂
  | [], _, _ => by simp [bytesOfHex_nil]
  | [c], _, h => by simp at h
  | c1 :: c2 :: rest, l₂, h => by
      simp only [List.cons_append, bytesOfHex_cons2]
      rw [bytesOfHex_append rest l₂ (by simp only [List.length_cons] at h; omega)]

theorem hexVal_hexChar (v : Nat) (h : v < 16) : hexVal (hexChar v) = v := by
  interval_cases v <;> decide

theorem bytesOfHex_hexOfBytes (bs : List Nat) (h : ∀ b ∈ bs, b < 256) :
    bytesOfHex (hexOfBytes bs) = bs := by
  induction bs with
  | nil => rfl
  | cons b rest ih =>
      have hb : b < 256 := h b (by simp)
      rw [hexOfBytes_cons, bytesOfHex_cons2,
        hexVal_hexChar (b / 16) (by omega), hexVal_hexChar (b % 16) (by omega),
        ih (fun x hx => h x (by simp [hx]))]
      have : 16 * (b / 16) + b % 16 = b := by omega
      rw [this, Nat.mod_eq_of_lt hb]

theorem hexOfBytes_drop (bs : List Nat) (k : Nat) :
    (hexOfBytes bs).drop (2 * k) = hexOfBytes (bs.drop k) := by
  induction bs generalizing k with
  | nil => simp [hexOfBytes_nil]
  | cons b rest ih =>
      cases k with
      | zero => simp
      | succ k' =>
          rw [hexOfBytes_cons, show 2 * (k' + 1) = 2 * k' + 1 + 1 from by omega,
            List.drop_succ_cons, List.drop_succ_cons, List.drop_succ_cons, ih k']

theorem hexChar_toLower (v : Nat) (h : v < 16) : (hexChar v).toLower = hexChar v := by
  interval_cases v <;> decide

theorem hexOfBytes_toLower (bs : List Nat) (h : ∀ b ∈ bs, b < 256) :
    (hexOfBytes bs).map Char.toLower = hexOfBytes bs := by
  induction bs with
  | nil => rfl
  | cons b rest ih =>
      have hb : b < 256 := h b (by simp)
      rw [hexOfBytes_cons, List.map_cons, List.map_cons,
        hexChar_toLower (b / 16) (by omega), hexChar_toLower (b % 16) (by omega),
        ih (fun x hx => h x (by simp [hx]))]

theorem squeeze256_length (st : List Nat) : (squeeze256 st).length = 32 := by
  simp [squeeze256, List.range_succ]

theorem squeeze256_lt (st : List Nat) : ∀ b ∈ squeeze256 st, b < 256 := by
  intro b hb
  simp only [squeeze256, List.mem_flatten, List.mem_map, List.mem_range] at hb
  obtain ⟨l, ⟨i, hi, rfl⟩, hbl⟩ := hb
  simp only [List.mem_map, List.mem_range] at hbl
  obtain ⟨j, hj, rfl⟩ := hbl
  exact Nat.mod_lt _ (by omega)

theorem keccak256_length (msg : List Nat) : (keccak256 msg).length = 32 :=
  squeeze256_length _

theorem keccak256_lt (msg : List Nat) : ∀ b ∈ keccak256 msg, b < 256 :=
  squeeze256_lt _

theorem word32_lt (n : Nat) : ∀ b ∈ word32 n, b < 256 := by
  intro b hb
  simp only [word32, List.mem_map, List.mem_range] at hb
  obtain ⟨i, hi, rfl⟩ := hb
  exact Nat.mod_lt _ (by omega)

theorem padRight32_lt (bs : List Nat) (h : ∀ b ∈ bs, b < 256) :
    ∀ b ∈ padRight32 bs, b < 256 := by
  intro b hb
  simp only [padRight32, List.mem_append, List.mem_replicate] at hb
  rcases hb with hb | hb
  · exact h b hb
  · omega

theorem abiStep_lt (base : Nat) (acc : List Nat × List Nat) (v : Val)
    (h1 : ∀ b ∈ acc.1, b < 256) (h2 : ∀ b ∈ acc.2, b < 256) :
    (∀ b ∈ (abiStep base acc v).1, b < 256) ∧ (∀ b ∈ (abiStep base acc v).2, b < 256) := by
  cases v with
  | addr a =>
      refine ⟨?_, h2⟩
      intro b hb
      simp only [abiStep, List.mem_append, List.mem_replicate] at hb
      rcases hb with hb | hb | hb
      · exact h1 b hb
      · omega
      · exact bytesOfHex_lt _ b hb
  | bytes s =>
      constructor
      · intro b hb
        simp only [abiStep, List.mem_append] at hb
        rcases hb with hb | hb
        · exact h1 b hb
        · exact word32_lt _ b hb
      · intro b hb
        simp only [abiStep, List.mem_append] at hb
        rcases hb with (hb | hb) | hb
        · exact h2 b hb
        · exact word32_lt _ b hb
        · exact padRight32_lt _ (bytesOfHex_lt _) b hb

theorem abiFold_lt (base : Nat) : ∀ (vs : List Val) (acc : List Nat × List Nat),
    (∀ b ∈ acc.1, b < 256) → (∀ b ∈ acc.2, b < 256) →
    (∀ b ∈ (vs.foldl (abiStep base) acc).1, b < 256) ∧
      (∀ b ∈ (vs.foldl (abiStep base) acc).2, b < 256)
  | [], acc, h1, h2 => ⟨h1, h2⟩
  | v :: rest, acc, h1, h2 => by
      rw [List.foldl_cons]
      obtain ⟨g1, g2⟩ := abiStep_lt base acc v h1 h2
      exact abiFold_lt base rest _ g1 g2

theorem abiEnc_lt (vs : List Val) : ∀ b ∈ abiEnc vs, b < 256 := by
  intro b hb
  simp only [abiEnc, List.mem_append] at hb
  obtain ⟨g1, g2⟩ := abiFold_lt (32 * vs.length) vs ([], [])
    (by intro b hb; simp at hb) (by intro b hb; simp at hb)
  rcases hb with hb | hb
  · exact g1 b hb
  · exact g2 b hb

theorem encodeParams_nil (dataTypes : List String) : encodeParams dataTypes [] = "0x" := rfl

theorem buildBytecode_nil (dataTypes : List String) (b : String) :
    buildBytecode dataTypes [] b = b := by
  unfold buildBytecode
  rw [encodeParams_nil]
  have h : sliceFrom "0x" 2 = "" := by decide
  rw [h, String.append_empty]

/-! ## Run-shape lemmas: the trace and result of each successful path -/

theorem ordRun_uups (env : Env) (ImplFactory : ContractFactory) (args : List String)
    (opts : DeployProxyOptions) (impl : String) (ao : Option String) (d : DeployResult)
    (hpair : opts.deployFactory = none ∨ opts.deployFactorySalt = none)
    (hkind : opts.kind = some "uups")
    (hnet : env.forNetwork = .ok ())
    (himpl : env.deployProxyImplAddr = .ok impl)
    (hga : env.getAdmin = .ok ao)
    (hdep : env.ordinaryDeploy = .ok d)
    (hap : env.addProxy = .ok ()) :
    deployProxy env ImplFactory (.args args) opts =
      (warnEvents ao ++
        [.deploySubmitted [.addr impl,
            .bytes (getInitializerData ImplFactory.interface args opts.initializer)],
          .manifestAppended "uups" d.address],
        .ok ⟨d.address, d.deployTransaction⟩) := by
  rcases hpair with h | h
  · simp only [deployProxy, h, hkind, hnet, himpl, hga, hdep, hap, deployProxyImplKind,
      Option.getD_some]
    cases ao <;> simp [warnEvents]
  · cases hdf2 : opts.deployFactory with
    | none =>
        simp only [deployProxy, h, hdf2, hkind, hnet, himpl, hga, hdep, hap,
          deployProxyImplKind, Option.getD_some]
        cases ao <;> simp [warnEvents]
    | some df =>
        simp only [deployProxy, h, hdf2, hkind, hnet, himpl, hga, hdep, hap,
          deployProxyImplKind, Option.getD_some]
        cases ao <;> simp [warnEvents]

theorem ordRun_transparent (env : Env) (ImplFactory : ContractFactory) (args : List String)
    (opts : DeployProxyOptions) (impl adm : String) (d : DeployResult)
    (hpair : opts.deployFactory = none ∨ opts.deployFactorySalt = none)
    (hkind : opts.kind.getD "transparent" = "transparent")
    (hnet : env.forNetwork = .ok ())
    (himpl : env.deployProxyImplAddr = .ok impl)
    (hfetch : env.fetchAdmin = .ok adm)
    (hdep : env.ordinaryDeploy = .ok d)
    (hap : env.addProxy = .ok ()) :
    deployProxy env ImplFactory (.args args) opts =
      ([.adminFetched adm,
         .deploySubmitted [.addr impl, .addr adm,
           .bytes (getInitializerData ImplFactory.interface args opts.initializer)],
         .manifestAppended "transparent" d.address],
        .ok ⟨d.address, d.deployTransaction⟩) := by
  rcases hpair with h | h
  · simp only [deployProxy, h, hnet, himpl, hfetch, hdep, hap, deployProxyImplKind, hkind]
    simp
  · cases hdf2 : opts.deployFactory with
    | none =>
        simp only [deployProxy, h, hdf2, hnet, himpl, hfetch, hdep, hap,
          deployProxyImplKind, hkind]
        simp
    | some df =>
        simp only [deployProxy, h, hdf2, hnet, himpl, hfetch, hdep, hap,
          deployProxyImplKind, hkind]
        simp

theorem detRun_uups (env : Env) (ImplFactory : ContractFactory) (args : List String)
    (opts : DeployProxyOptions) (df : Create2Factory) (ds : Salt) (ao : Option String)
    (tx1 tx2 : Tx)
    (hdf : opts.deployFactory = some df)
    (hds : opts.deployFactorySalt = some ds)
    (hkind : opts.kind.getD "uups" = "uups")
    (hnet : env.forNetwork = .ok ())
    (hga : env.getAdmin = .ok ao)
    (hap : env.addProxy = .ok ())
    (h1 : df.deploy ImplFactory.bytecode (saltToHex ds) = .ok tx1)
    (h1w : tx1.wait = .ok ())
    (h2 : df.deploy
      (buildBytecode ["address", "bytes"]
        [.addr (getCreate2Address df.address ds ImplFactory.bytecode [] []),
          .bytes (getInitializerData ImplFactory.interface args opts.initializer)]
        env.proxyFactory.bytecode) (saltToHex ds) = .ok tx2) :
    deployProxy env ImplFactory (.args args) opts =
      ([.create2Submitted ds ImplFactory.bytecode [] [], .txConfirmed tx1.hash] ++
        warnEvents ao ++
        [.create2Submitted ds env.proxyFactory.bytecode ["address", "bytes"]
            [.addr (getCreate2Address df.address ds ImplFactory.bytecode [] []),
              .bytes (getInitializerData ImplFactory.interface args opts.initializer)],
          .manifestAppended "uups"
            (getCreate2Address df.address ds env.proxyFactory.bytecode ["address", "bytes"]
              [.addr (getCreate2Address df.address ds ImplFactory.bytecode [] []),
                .bytes (getInitializerData ImplFactory.interface args opts.initializer)])],
        .ok ⟨getCreate2Address df.address ds env.proxyFactory.bytecode ["address", "bytes"]
            [.addr (getCreate2Address df.address ds ImplFactory.bytecode [] []),
              .bytes (getInitializerData ImplFactory.interface args opts.initializer)],
          tx2⟩) := by
  simp only [deployProxy, deployContract, hdf, hds, hkind, hnet, hga, hap, buildBytecode_nil,
    h1, h1w, h2]
  cases ao <;> simp [warnEvents, h1, h1w, h2]

theorem detRun_transparent (env : Env) (ImplFactory : ContractFactory) (args : List String)
    (opts : DeployProxyOptions) (df : Create2Factory) (ds : Salt) (adm : String)
    (tx1 tx2 : Tx)
    (hdf : opts.deployFactory = some df)
    (hds : opts.deployFactorySalt = some ds)
    (hkind : opts.kind = some "transparent")
    (hnet : env.forNetwork = .ok ())
    (hfetch : env.fetchAdmin = .ok adm)
    (hap : env.addProxy = .ok ())
    (h1 : df.deploy ImplFactory.bytecode (saltToHex ds) = .ok tx1)
    (h1w : tx1.wait = .ok ())
    (h2 : df.deploy
      (buildBytecode ["address", "address", "bytes"]
        [.addr (getCreate2Address df.address ds ImplFactory.bytecode [] []), .addr adm,
          .bytes (getInitializerData ImplFactory.interface args opts.initializer)]
        env.transparentProxyFactory.bytecode) (saltToHex ds) = .ok tx2) :
    deployProxy env ImplFactory (.args args) opts =
      ([.create2Submitted ds ImplFactory.bytecode [] [], .txConfirmed tx1.hash,
         .adminFetched adm,
         .create2Submitted ds env.transparentProxyFactory.bytecode
           ["address", "address", "bytes"]
           [.addr (getCreate2Address df.address ds ImplFactory.bytecode [] []), .addr adm,
             .bytes (getInitializerData ImplFactory.interface args opts.initializer)],
         .manifestAppended "transparent"
           (getCreate2Address df.address ds env.transparentProxyFactory.bytecode
             ["address", "address", "bytes"]
             [.addr (getCreate2Address df.address ds ImplFactory.bytecode [] []), .addr adm,
               .bytes (getInitializerData ImplFactory.interface args opts.initializer)])],
        .ok ⟨getCreate2Address df.address ds env.transparentProxyFactory.bytecode
            ["address", "address", "bytes"]
            [.addr (getCreate2Address df.address ds ImplFactory.bytecode [] []), .addr adm,
              .bytes (getInitializerData ImplFactory.interface args opts.initializer)],
          tx2⟩) := by
  simp only [deployProxy, deployContract, hdf, hds, hkind, hnet, hfetch, hap,
    buildBytecode_nil, h1, h1w, h2, Option.getD_some]
  simp [h1, h1w, h2]

/-! ## Claim C9 -/

/-- C9: for every factory and every non-array second argument `x`,
`deployProxy(factory, x)` behaves identically to `deployProxy(factory, [], x)`:
`x` is interpreted as the options object and the initializer argument list
defaults to empty. -/
theorem C9_opts_normalization (env : Env) (ImplFactory : ContractFactory)
    (x : DeployProxyOptions) :
    deployProxy env ImplFactory (.opts x) defaultOpts =
      deployProxy env ImplFactory (.args []) x := rfl

/-! ## Claim C4 -/

/-- C4: the `address` field resolved by `deployContract` (the deterministic
`deployFactory`/`deployFactorySalt` path) equals the address returned by a
standalone `getCreate2Address` call with the same factory address, salt,
bytecode, constructor types and constructor arguments. -/
theorem C4_deployContract_address (salt : Salt) (factory : Create2Factory)
    (contractBytecode : String) (constructorTypes : List String) (constructorArgs : List Val)
    (r : DeployResult)
    (h : (deployContract salt factory contractBytecode constructorTypes constructorArgs).2 =
      .ok r) :
    r.address =
      getCreate2Address factory.address salt contractBytecode constructorTypes
        constructorArgs := by
  simp only [deployContract] at h
  split at h
  · simp at h
  · simp only [Except.ok.injEq] at h
    rw [← h]

theorem C4_witness :
    (deployContract (.str "s") tFactory "0x6080" [] []).2 = .ok wRes ∧
    wRes.address = getCreate2Address tFactory.address (.str "s") "0x6080" [] [] :=
  ⟨rfl, C4_deployContract_address (.str "s") tFactory "0x6080" [] [] wRes rfl⟩

/-! ## Claim C8 -/

/-- C8 counterexample: the claim says a raw 32-byte salt value is used as-is
without re-hashing, but `saltToHex` unconditionally applies `ethers.utils.id`,
so even a raw 32-byte hex string is replaced by its hash. -/
theorem C8_counterexample : saltToHex (.str raw32Salt) ≠ raw32Salt := by decide

/-- C8 as amended: every salt — a string (including a raw 32-byte hex string)
or a numeric identifier — is hash-normalized: `saltToHex` returns the 32-byte
keccak hash of the salt's string representation (a 66-character `0x` hex
string), and never passes a raw 32-byte value through unhashed. -/
theorem C8_salt_always_hashed (salt : Salt) :
    saltToHex salt = idHash salt.toStr ∧ (saltToHex salt).length = 66 := by
  refine ⟨rfl, ?_⟩
  show (saltToHex salt).data.length = 66
  simp only [saltToHex, idHash, List.length_cons]
  rw [hexOfBytes_length, keccak256_length]

/-! ## Claim C2 -/

/-- C2 counterexample: the claim says the `BeaconProxyUnsupportedError` is
raised before any transaction is submitted, but with the deterministic
deployment pair present the implementation creation transaction is submitted
(and even confirmed) before the error is thrown. -/
theorem C2_counterexample :
    (deployProxy tEnv tImplFactory (.args []) c2opts).2 = .error .beaconProxyUnsupported ∧
    .create2Submitted (.str "s") "0x6080" [] [] ∈
      (deployProxy tEnv tImplFactory (.args []) c2opts).1 ∧
    .txConfirmed "0xtximpl" ∈ (deployProxy tEnv tImplFactory (.args []) c2opts).1 := by
  decide

/-- C2 as amended: with `kind: beacon` the call always fails with the distinct
`BeaconProxyUnsupportedError` regardless of other options, and the error is
raised before the proxy creation is submitted and before any Manifest append —
but not before every network call: in the deterministic path the
implementation deployment transaction is submitted first (the only
transactions in the trace carry the implementation init code). -/
theorem C2_beacon_unsupported (env : Env) (ImplFactory : ContractFactory)
    (args : List String) (opts : DeployProxyOptions)
    (hkind : opts.kind = some "beacon")
    (hnet : env.forNetwork = .ok ())
    (himpl : ∃ a, env.deployProxyImplAddr = .ok a)
    (hdet : ∀ df ds, opts.deployFactory = some df → opts.deployFactorySalt = some ds →
      ∃ tx, df.deploy ImplFactory.bytecode (saltToHex ds) = .ok tx ∧ tx.wait = .ok ()) :
    (deployProxy env ImplFactory (.args args) opts).2 = .error .beaconProxyUnsupported ∧
    (∀ vs, .deploySubmitted vs ∉ (deployProxy env ImplFactory (.args args) opts).1) ∧
    (∀ k a, .manifestAppended k a ∉ (deployProxy env ImplFactory (.args args) opts).1) ∧
    (∀ s cb ts vs,
      .create2Submitted s cb ts vs ∈ (deployProxy env ImplFactory (.args args) opts).1 →
      cb = ImplFactory.bytecode) := by
  obtain ⟨ia, hia⟩ := himpl
  cases hdf : opts.deployFactory with
  | some df =>
      cases hds : opts.deployFactorySalt with
      | some ds =>
          obtain ⟨tx, hd, hw⟩ := hdet df ds hdf hds
          simp only [deployProxy, deployContract, hkind, hnet, hdf, hds, buildBytecode_nil,
            hd, hw, Option.getD_some]
          simp
          intro s cb ts vs hs hcb hts hvs
          exact hcb
      | none =>
          simp only [deployProxy, hkind, hnet, hdf, hds, hia, deployProxyImplKind,
            Option.getD_some]
          simp
  | none =>
      simp only [deployProxy, hkind, hnet, hdf, hia, deployProxyImplKind, Option.getD_some]
      cases hds : opts.deployFactorySalt <;> simp

theorem C2_witness :
    c2opts.kind = some "beacon" ∧
    (deployProxy tEnv tImplFactory (.args []) c2opts).2 = .error .beaconProxyUnsupported :=
  ⟨rfl,
    (C2_beacon_unsupported tEnv tImplFactory [] c2opts rfl rfl ⟨"0ximpl", rfl⟩
      (fun df ds hdf hds => by
        cases hdf; cases hds
        exact ⟨⟨"0xtximpl", .ok ()⟩, rfl, rfl⟩)).1⟩

/-! ## Claim C5 -/

/-- C5: a `deployProxy` call with kind uups against a Manifest whose admin is
already set still succeeds (no error) and emits exactly one warning about the
previously deployed proxy admin — in the ordinary path and in the
deterministic path alike. -/
theorem C5_uups_admin_warning (env : Env) (ImplFactory : ContractFactory)
    (args : List String) (opts : DeployProxyOptions) (a impl : String) (d : DeployResult)
    (hkind : opts.kind = some "uups")
    (hnet : env.forNetwork = .ok ())
    (himpl : env.deployProxyImplAddr = .ok impl)
    (hadmin : env.getAdmin = .ok (some a))
    (hdep : env.ordinaryDeploy = .ok d)
    (hap : env.addProxy = .ok ()) :
    ((opts.deployFactory = none ∨ opts.deployFactorySalt = none) →
      (deployProxy env ImplFactory (.args args) opts).2 =
        .ok ⟨d.address, d.deployTransaction⟩ ∧
      ((deployProxy env ImplFactory (.args args) opts).1.filter fun e =>
        match e with | .warned _ => true | _ => false).length = 1) ∧
    (∀ df ds, opts.deployFactory = some df → opts.deployFactorySalt = some ds →
      (∀ bc sh, ∃ tx, df.deploy bc sh = .ok tx ∧ tx.wait = .ok ()) →
      (∃ inst, (deployProxy env ImplFactory (.args args) opts).2 = .ok inst) ∧
      ((deployProxy env ImplFactory (.args args) opts).1.filter fun e =>
        match e with | .warned _ => true | _ => false).length = 1) := by
  constructor
  · intro hpair
    rw [ordRun_uups env ImplFactory args opts impl (some a) d hpair hkind hnet himpl hadmin
      hdep hap]
    simp [warnEvents]
  · intro df ds hdf hds hok
    obtain ⟨tx1, h1, h1w⟩ := hok ImplFactory.bytecode (saltToHex ds)
    obtain ⟨tx2, h2, _⟩ := hok
      (buildBytecode ["address", "bytes"]
        [.addr (getCreate2Address df.address ds ImplFactory.bytecode [] []),
          .bytes (getInitializerData ImplFactory.interface args opts.initializer)]
        env.proxyFactory.bytecode) (saltToHex ds)
    rw [detRun_uups env ImplFactory args opts df ds (some a) tx1 tx2 hdf hds
      (by rw [hkind]; rfl) hnet hadmin hap h1 h1w h2]
    exact ⟨⟨_, rfl⟩, by simp [warnEvents]⟩

theorem C5_witness :
    tEnv.getAdmin = .ok (some "0xadmin") ∧
    ((deployProxy tEnv tImplFactory (.args []) { kind := some "uups" }).2 =
      .ok ⟨"0xproxyaddr", ⟨"0xtxord", .ok ()⟩⟩ ∧
    ((deployProxy tEnv tImplFactory (.args []) { kind := some "uups" }).1.filter fun e =>
      match e with | .warned _ => true | _ => false).length = 1) :=
  ⟨rfl,
    (C5_uups_admin_warning tEnv tImplFactory [] { kind := some "uups" } "0xadmin" "0ximpl"
      ⟨"0xproxyaddr", "0xtxord", ⟨"0xtxord", .ok ()⟩⟩ rfl rfl rfl rfl rfl rfl).1
      (Or.inl rfl)⟩

/-! ## Claim C6 -/

/-- C6: when both `deployFactory` and `deployFactorySalt` are provided and
`kind` is absent, the resolved proxy kind is uups; when the deterministic
pair is absent (either option missing) and `kind` is unspecified, the
resolved kind defaults to transparent — observed through the kind recorded
with the manifest append. -/
theorem C6_kind_defaults (env : Env) (ImplFactory : ContractFactory)
    (args : List String) (opts : DeployProxyOptions) (impl adm : String)
    (ao : Option String) (d : DeployResult)
    (hkind : opts.kind = none)
    (hnet : env.forNetwork = .ok ())
    (himpl : env.deployProxyImplAddr = .ok impl)
    (hga : env.getAdmin = .ok ao)
    (hfetch : env.fetchAdmin = .ok adm)
    (hdep : env.ordinaryDeploy = .ok d)
    (hap : env.addProxy = .ok ()) :
    (∀ df ds, opts.deployFactory = some df → opts.deployFactorySalt = some ds →
      (∀ bc sh, ∃ tx, df.deploy bc sh = .ok tx ∧ tx.wait = .ok ()) →
      appendedKinds (deployProxy env ImplFactory (.args args) opts).1 = ["uups"]) ∧
    ((opts.deployFactory = none ∨ opts.deployFactorySalt = none) →
      appendedKinds (deployProxy env ImplFactory (.args args) opts).1 = ["transparent"]) := by
  constructor
  · intro df ds hdf hds hok
    obtain ⟨tx1, h1, h1w⟩ := hok ImplFactory.bytecode (saltToHex ds)
    obtain ⟨tx2, h2, _⟩ := hok
      (buildBytecode ["address", "bytes"]
        [.addr (getCreate2Address df.address ds ImplFactory.bytecode [] []),
          .bytes (getInitializerData ImplFactory.interface args opts.initializer)]
        env.proxyFactory.bytecode) (saltToHex ds)
    rw [detRun_uups env ImplFactory args opts df ds ao tx1 tx2 hdf hds
      (by rw [hkind]; rfl) hnet hga hap h1 h1w h2]
    cases ao <;> simp [appendedKinds, warnEvents]
  · intro hpair
    rw [ordRun_transparent env ImplFactory args opts impl adm d hpair
      (by rw [hkind]; rfl) hnet himpl hfetch hdep hap]
    simp [appendedKinds]

theorem C6_witness :
    ({ deployFactory := some tFactory, deployFactorySalt := some (.str "s") } :
        DeployProxyOptions).kind = none ∧
    appendedKinds (deployProxy tEnv tImplFactory (.args [])
      { deployFactory := some tFactory, deployFactorySalt := some (.str "s") }).1 =
      ["uups"] ∧
    appendedKinds (deployProxy tEnv tImplFactory (.args []) {}).1 = ["transparent"] := by
  refine ⟨rfl, ?_, ?_⟩
  · exact (C6_kind_defaults tEnv tImplFactory []
      { deployFactory := some tFactory, deployFactorySalt := some (.str "s") }
      "0ximpl" "0xadmin" (some "0xadmin") ⟨"0xproxyaddr", "0xtxord", ⟨"0xtxord", .ok ()⟩⟩
      rfl rfl rfl rfl rfl rfl rfl).1 tFactory (.str "s") rfl rfl
      (fun bc sh => ⟨⟨if bc = "0x6080" then "0xtximpl" else "0xtxproxy", .ok ()⟩, rfl, rfl⟩)
  · exact (C6_kind_defaults tEnv tImplFactory [] {} "0ximpl" "0xadmin" (some "0xadmin")
      ⟨"0xproxyaddr", "0xtxord", ⟨"0xtxord", .ok ()⟩⟩ rfl rfl rfl rfl rfl rfl rfl).2
      (Or.inl rfl)

/-! ## Claim C3 -/

/-- Auxiliary full case analysis for C3, for the list-shaped second argument. -/
theorem C3aux (env : Env) (ImplFactory : ContractFactory) (args : List String)
    (opts : DeployProxyOptions) :
    ((∃ e, (deployProxy env ImplFactory (.args args) opts).2 = .error e) →
      ((deployProxy env ImplFactory (.args args) opts).1.all fun e => !(isAppend e)) = true) ∧
    ((deployProxy env ImplFactory (.args args) opts).1.dropLast.all
      fun e => !(isAppend e)) = true ∧
    appendAfterSubmission (deployProxy env ImplFactory (.args args) opts).1 = true := by
  cases henv : env.forNetwork with
  | error e0 => simp [deployProxy, henv, isAppend, appendAfterSubmission]
  | ok u0 =>
  cases u0
  cases hdf : opts.deployFactory with
  | some df =>
    cases hds : opts.deployFactorySalt with
    | some ds =>
      cases hdep : df.deploy (buildBytecode [] [] ImplFactory.bytecode) (saltToHex ds) with
      | error e1 =>
          simp_all [deployProxy, deployContract, isAppend, appendAfterSubmission]
      | ok tx1 =>
      cases hw : tx1.wait with
      | error e2 => simp_all [deployProxy, deployContract, isAppend, appendAfterSubmission]
      | ok u1 =>
      cases u1
      by_cases hkb : opts.kind.getD "uups" = "beacon"
      · simp_all [deployProxy, deployContract, isAppend, appendAfterSubmission]
      by_cases hku : opts.kind.getD "uups" = "uups"
      · cases hga : env.getAdmin with
        | error e3 => simp_all [deployProxy, deployContract, isAppend, appendAfterSubmission]
        | ok ao =>
        cases hdep2 : df.deploy (buildBytecode ["address", "bytes"]
            [.addr (getCreate2Address df.address ds ImplFactory.bytecode [] []),
              .bytes (getInitializerData ImplFactory.interface args opts.initializer)]
            env.proxyFactory.bytecode) (saltToHex ds) with
        | error e4 =>
            cases ao <;>
              simp_all [deployProxy, deployContract, isAppend, appendAfterSubmission,
                warnEvents]
        | ok tx2 =>
        cases hap : env.addProxy with
        | error e5 =>
            cases ao <;>
              simp_all [deployProxy, deployContract, isAppend, appendAfterSubmission,
                warnEvents]
        | ok u2 =>
            cases u2
            cases ao <;>
              simp_all [deployProxy, deployContract, isAppend, appendAfterSubmission,
                warnEvents, isSubmission]
      · cases hfetch : env.fetchAdmin with
        | error e6 => simp_all [deployProxy, deployContract, isAppend, appendAfterSubmission]
        | ok adm =>
        cases hdep2 : df.deploy (buildBytecode ["address", "address", "bytes"]
            [.addr (getCreate2Address df.address ds ImplFactory.bytecode [] []), .addr adm,
              .bytes (getInitializerData ImplFactory.interface args opts.initializer)]
            env.transparentProxyFactory.bytecode) (saltToHex ds) with
        | error e7 => simp_all [deployProxy, deployContract, isAppend, appendAfterSubmission]
        | ok tx2 =>
        cases hap : env.addProxy with
        | error e8 => simp_all [deployProxy, deployContract, isAppend, appendAfterSubmission]
        | ok u2 =>
            cases u2
            simp_all [deployProxy, deployContract, isAppend, appendAfterSubmission,
              isSubmission]
    | none =>
      cases himpl : env.deployProxyImplAddr with
      | error e1 => simp_all [deployProxy, isAppend, appendAfterSubmission]
      | ok impl =>
      by_cases hkb : opts.kind.getD "transparent" = "beacon"
      · simp_all [deployProxy, deployProxyImplKind, isAppend, appendAfterSubmission]
      by_cases hku : opts.kind.getD "transparent" = "uups"
      · cases hga : env.getAdmin with
        | error e3 =>
            simp_all [deployProxy, deployProxyImplKind, isAppend, appendAfterSubmission]
        | ok ao =>
        cases hdep2 : env.ordinaryDeploy with
        | error e4 =>
            cases ao <;>
              simp_all [deployProxy, deployProxyImplKind, isAppend, appendAfterSubmission,
                warnEvents]
        | ok d =>
        cases hap : env.addProxy with
        | error e5 =>
            cases ao <;>
              simp_all [deployProxy, deployProxyImplKind, isAppend, appendAfterSubmission,
                warnEvents]
        | ok u2 =>
            cases u2
            cases ao <;>
              simp_all [deployProxy, deployProxyImplKind, isAppend, appendAfterSubmission,
                warnEvents, isSubmission]
      · cases hfetch : env.fetchAdmin with
        | error e6 =>
            simp_all [deployProxy, deployProxyImplKind, isAppend, appendAfterSubmission]
        | ok adm =>
        cases hdep2 : env.ordinaryDeploy with
        | error e7 =>
            simp_all [deployProxy, deployProxyImplKind, isAppend, appendAfterSubmission]
        | ok d =>
        cases hap : env.addProxy with
        | error e8 =>
            simp_all [deployProxy, deployProxyImplKind, isAppend, appendAfterSubmission]
        | ok u2 =>
            cases u2
            simp_all [deployProxy, deployProxyImplKind, isAppend, appendAfterSubmission,
              isSubmission]
  | none =>
      cases himpl : env.deployProxyImplAddr with
      | error e1 => simp_all [deployProxy, isAppend, appendAfterSubmission]
      | ok impl =>
      by_cases hkb : opts.kind.getD "transparent" = "beacon"
      · simp_all [deployProxy, deployProxyImplKind, isAppend, appendAfterSubmission]
      by_cases hku : opts.kind.getD "transparent" = "uups"
      · cases hga : env.getAdmin with
        | error e3 =>
            simp_all [deployProxy, deployProxyImplKind, isAppend, appendAfterSubmission]
        | ok ao =>
        cases hdep2 : env.ordinaryDeploy with
        | error e4 =>
            cases ao <;>
              simp_all [deployProxy, deployProxyImplKind, isAppend, appendAfterSubmission,
                warnEvents]
        | ok d =>
        cases hap : env.addProxy with
        | error e5 =>
            cases ao <;>
              simp_all [deployProxy, deployProxyImplKind, isAppend, appendAfterSubmission,
                warnEvents]
        | ok u2 =>
            cases u2
            cases ao <;>
              simp_all [deployProxy, deployProxyImplKind, isAppend, appendAfterSubmission,
                warnEvents, isSubmission]
      · cases hfetch : env.fetchAdmin with
        | error e6 =>
            simp_all [deployProxy, deployProxyImplKind, isAppend, appendAfterSubmission]
        | ok adm =>
        cases hdep2 : env.ordinaryDeploy with
        | error e7 =>
            simp_all [deployProxy, deployProxyImplKind, isAppend, appendAfterSubmission]
        | ok d =>
        cases hap : env.addProxy with
        | error e8 =>
            simp_all [deployProxy, deployProxyImplKind, isAppend, appendAfterSubmission]
        | ok u2 =>
            cases u2
            simp_all [deployProxy, deployProxyImplKind, isAppend, appendAfterSubmission,
              isSubmission]

/-- C3 counterexample: in the deterministic path a single proxy deployment is
appended to the manifest while the only transaction ever confirmed in the
trace is the implementation one (`0xtximpl`); the proxy creation transaction
(hash `0xtxproxy`, carried by the returned instance) is submitted but its
on-chain confirmation is never awaited before the append. -/
theorem C3_counterexample :
    ((deployProxy tEnv tImplFactory (.args []) c3opts).1.filter isAppend).length = 1 ∧
    (deployProxy tEnv tImplFactory (.args []) c3opts).1.filterMap
      (fun e => match e with | .txConfirmed h => some h | _ => none) = ["0xtximpl"] ∧
    (deployProxy tEnv tImplFactory (.args []) c3opts).2.map
      (fun i => i.deployTransaction.hash) = .ok "0xtxproxy" := by
  decide

/-- C3 as amended: the `ProxyDeployment` is appended to the Manifest only as
the final step of a successful call, immediately after the proxy creation
transaction has been successfully submitted — the deterministic path does not
await the proxy transaction's on-chain confirmation before appending (only
the implementation deployment is confirmed) — and when any step fails no
partial state is committed to the Manifest. -/
theorem C3_manifest_append (env : Env) (ImplFactory : ContractFactory)
    (argsOrOpts : ArgsOrOpts) (opts0 : DeployProxyOptions) :
    ((∃ e, (deployProxy env ImplFactory argsOrOpts opts0).2 = .error e) →
      ((deployProxy env ImplFactory argsOrOpts opts0).1.all fun e => !(isAppend e)) = true) ∧
    ((deployProxy env ImplFactory argsOrOpts opts0).1.dropLast.all
      fun e => !(isAppend e)) = true ∧
    appendAfterSubmission (deployProxy env ImplFactory argsOrOpts opts0).1 = true := by
  cases argsOrOpts with
  | args l => exact C3aux env ImplFactory l opts0
  | opts o => exact C3aux env ImplFactory [] o

theorem C3_witness :
    (∃ e, (deployProxy tEnvFail tImplFactory (.args []) defaultOpts).2 = .error e) ∧
    ((deployProxy tEnvFail tImplFactory (.args []) defaultOpts).1.all
      fun e => !(isAppend e)) = true :=
  ⟨⟨.collab "netdown", rfl⟩,
    (C3_manifest_append tEnvFail tImplFactory (.args []) defaultOpts).1
      ⟨.collab "netdown", rfl⟩⟩

/-! ## Claim C7 -/

/-- C7: with resolved kind transparent, an admin address is obtained via
`fetchOrDeployAdmin` and the proxy creation arguments are exactly
`(implementationAddress, adminAddress, initializerCallData)` with ABI types
`(address, address, bytes)`; with resolved kind uups no admin is fetched or
deployed, and the arguments are exactly
`(implementationAddress, initializerCallData)` with types `(address, bytes)`.
The argument list is observed at the proxy creation submission; the ABI type
list is observed where it is consumed, in the deterministic submission. -/
theorem C7_dispatch_args (env : Env) (ImplFactory : ContractFactory)
    (args : List String) (opts : DeployProxyOptions) (impl adm : String)
    (ao : Option String) (d : DeployResult)
    (hnet : env.forNetwork = .ok ())
    (himpl : env.deployProxyImplAddr = .ok impl)
    (hga : env.getAdmin = .ok ao)
    (hfetch : env.fetchAdmin = .ok adm)
    (hdep : env.ordinaryDeploy = .ok d)
    (hap : env.addProxy = .ok ()) :
    ((opts.deployFactory = none ∨ opts.deployFactorySalt = none) →
      opts.kind = some "transparent" →
      .adminFetched adm ∈ (deployProxy env ImplFactory (.args args) opts).1 ∧
      .deploySubmitted [.addr impl, .addr adm,
          .bytes (getInitializerData ImplFactory.interface args opts.initializer)] ∈
        (deployProxy env ImplFactory (.args args) opts).1) ∧
    ((opts.deployFactory = none ∨ opts.deployFactorySalt = none) →
      opts.kind = some "uups" →
      .deploySubmitted [.addr impl,
          .bytes (getInitializerData ImplFactory.interface args opts.initializer)] ∈
        (deployProxy env ImplFactory (.args args) opts).1 ∧
      (∀ x, .adminFetched x ∉ (deployProxy env ImplFactory (.args args) opts).1)) ∧
    (∀ df ds, opts.deployFactory = some df → opts.deployFactorySalt = some ds →
      (∀ bc sh, ∃ tx, df.deploy bc sh = .ok tx ∧ tx.wait = .ok ()) →
      opts.kind = some "transparent" →
      .adminFetched adm ∈ (deployProxy env ImplFactory (.args args) opts).1 ∧
      .create2Submitted ds env.transparentProxyFactory.bytecode
          ["address", "address", "bytes"]
          [.addr (getCreate2Address df.address ds ImplFactory.bytecode [] []), .addr adm,
            .bytes (getInitializerData ImplFactory.interface args opts.initializer)] ∈
        (deployProxy env ImplFactory (.args args) opts).1) ∧
    (∀ df ds, opts.deployFactory = some df → opts.deployFactorySalt = some ds →
      (∀ bc sh, ∃ tx, df.deploy bc sh = .ok tx ∧ tx.wait = .ok ()) →
      opts.kind.getD "uups" = "uups" →
      .create2Submitted ds env.proxyFactory.bytecode ["address", "bytes"]
          [.addr (getCreate2Address df.address ds ImplFactory.bytecode [] []),
            .bytes (getInitializerData ImplFactory.interface args opts.initializer)] ∈
        (deployProxy env ImplFactory (.args args) opts).1 ∧
      (∀ x, .adminFetched x ∉ (deployProxy env ImplFactory (.args args) opts).1)) := by
  refine ⟨?_, ?_, ?_, ?_⟩
  · intro hpair hkind
    rw [ordRun_transparent env ImplFactory args opts impl adm d hpair (by rw [hkind]; rfl)
      hnet himpl hfetch hdep hap]
    simp
  · intro hpair hkind
    rw [ordRun_uups env ImplFactory args opts impl ao d hpair hkind hnet himpl hga hdep hap]
    cases ao <;> simp [warnEvents]
  · intro df ds hdf hds hok hkind
    obtain ⟨tx1, h1, h1w⟩ := hok ImplFactory.bytecode (saltToHex ds)
    obtain ⟨tx2, h2, _⟩ := hok
      (buildBytecode ["address", "address", "bytes"]
        [.addr (getCreate2Address df.address ds ImplFactory.bytecode [] []), .addr adm,
          .bytes (getInitializerData ImplFactory.interface args opts.initializer)]
        env.transparentProxyFactory.bytecode) (saltToHex ds)
    rw [detRun_transparent env ImplFactory args opts df ds adm tx1 tx2 hdf hds hkind
      hnet hfetch hap h1 h1w h2]
    simp
  · intro df ds hdf hds hok hkind
    obtain ⟨tx1, h1, h1w⟩ := hok ImplFactory.bytecode (saltToHex ds)
    obtain ⟨tx2, h2, _⟩ := hok
      (buildBytecode ["address", "bytes"]
        [.addr (getCreate2Address df.address ds ImplFactory.bytecode [] []),
          .bytes (getInitializerData ImplFactory.interface args opts.initializer)]
        env.proxyFactory.bytecode) (saltToHex ds)
    rw [detRun_uups env ImplFactory args opts df ds ao tx1 tx2 hdf hds hkind
      hnet hga hap h1 h1w h2]
    cases ao <;> simp [warnEvents]

theorem C7_witness :
    tEnv.fetchAdmin = .ok "0xadmin" ∧
    (.adminFetched "0xadmin" ∈
      (deployProxy tEnv tImplFactory (.args []) { kind := some "transparent" }).1 ∧
    .deploySubmitted [.addr "0ximpl", .addr "0xadmin", .bytes "0xdata"] ∈
      (deployProxy tEnv tImplFactory (.args []) { kind := some "transparent" }).1) :=
  ⟨rfl,
    (C7_dispatch_args tEnv tImplFactory [] { kind := some "transparent" } "0ximpl"
      "0xadmin" (some "0xadmin") ⟨"0xproxyaddr", "0xtxord", ⟨"0xtxord", .ok ()⟩⟩
      rfl rfl rfl rfl rfl rfl).1 (Or.inl rfl) rfl⟩

/-! ## Claim C10 -/

/-- C10: in the deterministic path the implementation is deployed with init
code exactly `ImplFactory.bytecode` — the constructor types and arguments
passed to the deterministic deployer are empty, and appending the ABI encoding
of no arguments leaves the bytecode unchanged — the implementation stage of
the trace does not depend on `args`, and `args` only influences the
initializer call data encoded into the proxy creation arguments. -/
theorem C10_deterministic_impl (env : Env) (ImplFactory : ContractFactory)
    (args args' : List String) (opts : DeployProxyOptions) (df : Create2Factory) (ds : Salt)
    (ao : Option String)
    (hdf : opts.deployFactory = some df)
    (hds : opts.deployFactorySalt = some ds)
    (hok : ∀ bc sh, ∃ tx, df.deploy bc sh = .ok tx ∧ tx.wait = .ok ())
    (hkind : opts.kind = none)
    (hnet : env.forNetwork = .ok ())
    (hga : env.getAdmin = .ok ao)
    (hap : env.addProxy = .ok ()) :
    buildBytecode [] [] ImplFactory.bytecode = ImplFactory.bytecode ∧
    .create2Submitted ds ImplFactory.bytecode [] [] ∈
      (deployProxy env ImplFactory (.args args) opts).1 ∧
    List.take 2 (deployProxy env ImplFactory (.args args) opts).1 =
      List.take 2 (deployProxy env ImplFactory (.args args') opts).1 ∧
    .create2Submitted ds env.proxyFactory.bytecode ["address", "bytes"]
        [.addr (getCreate2Address df.address ds ImplFactory.bytecode [] []),
          .bytes (getInitializerData ImplFactory.interface args opts.initializer)] ∈
      (deployProxy env ImplFactory (.args args) opts).1 := by
  obtain ⟨tx1, h1, h1w⟩ := hok ImplFactory.bytecode (saltToHex ds)
  obtain ⟨tx2, h2, _⟩ := hok
    (buildBytecode ["address", "bytes"]
      [.addr (getCreate2Address df.address ds ImplFactory.bytecode [] []),
        .bytes (getInitializerData ImplFactory.interface args opts.initializer)]
      env.proxyFactory.bytecode) (saltToHex ds)
  obtain ⟨tx2', h2', _⟩ := hok
    (buildBytecode ["address", "bytes"]
      [.addr (getCreate2Address df.address ds ImplFactory.bytecode [] []),
        .bytes (getInitializerData ImplFactory.interface args' opts.initializer)]
      env.proxyFactory.bytecode) (saltToHex ds)
  rw [detRun_uups env ImplFactory args opts df ds ao tx1 tx2 hdf hds (by rw [hkind]; rfl)
    hnet hga hap h1 h1w h2,
    detRun_uups env ImplFactory args' opts df ds ao tx1 tx2' hdf hds (by rw [hkind]; rfl)
    hnet hga hap h1 h1w h2']
  refine ⟨buildBytecode_nil [] ImplFactory.bytecode, by simp, by simp, by simp⟩

/-! ## Claim C1 -/

theorem take2_shape (l : List Char) (h : l.take 2 = ['0', 'x']) :
    l = '0' :: 'x' :: l.drop 2 := by
  conv_lhs => rw [← List.take_append_drop 2 l]
  rw [h]
  rfl

theorem drop0xFirst_of_take2 (l : List Char) (h : l.take 2 = ['0', 'x']) :
    drop0xFirst l = l.drop 2 := by
  rw [take2_shape l h]
  rfl

/-- C1: `getCreate2Address` returns the 20-byte address equal to the low-order
20 bytes of keccak256 over the concatenation of the single byte `0xff`, the
factory address, the hash-normalized salt, and keccak256 of the init code
(`contractBytecode` followed by the ABI encoding of the constructor
arguments) — for every factory address and creation bytecode of the hex-string
shape `ethers` accepts.  Both sides are pure functions of the arguments, so
identical inputs always yield the identical address with no network access. -/
theorem C1_getCreate2Address_spec (factoryAddress : String) (salt : Salt)
    (contractBytecode : String) (constructorTypes : List String)
    (constructorArgs : List Val)
    (hfa : isHexShaped factoryAddress) (hcb : isHexShaped contractBytecode) :
    getCreate2Address factoryAddress salt contractBytecode constructorTypes constructorArgs
      = specCreate2Address factoryAddress salt contractBytecode constructorTypes
          constructorArgs := by
  obtain ⟨hfa1, hfa2⟩ := hfa
  obtain ⟨hcb1, hcb2⟩ := hcb
  have hBdrop :
      (buildBytecode constructorTypes constructorArgs contractBytecode).data.drop 2
        = contractBytecode.data.drop 2 ++ hexOfBytes (abiEnc constructorArgs) := by
    show (contractBytecode ++
      sliceFrom (encodeParams constructorTypes constructorArgs) 2).data.drop 2 = _
    rw [String.data_append]
    conv_lhs => rw [take2_shape contractBytecode.data hcb1]
    rfl
  have hinitBytes :
      bytesOfHex
        ((buildBytecode constructorTypes constructorArgs contractBytecode).data.drop 2)
        = bytesOfHex (contractBytecode.data.drop 2) ++ abiEnc constructorArgs := by
    rw [hBdrop, bytesOfHex_append _ _ (by rw [List.length_drop]; exact hcb2),
      bytesOfHex_hexOfBytes _ (abiEnc_lt _)]
  have hjoined :
      ((["ff", factoryAddress, saltToHex salt,
          keccak256hex (buildBytecode constructorTypes constructorArgs contractBytecode)].map
        fun x => drop0xFirst x.data).flatten)
        = 'f' :: 'f' :: (factoryAddress.data.drop 2 ++
            (hexOfBytes (keccak256 (utf8Bytes salt.toStr)) ++
              hexOfBytes (keccak256 (bytesOfHex (contractBytecode.data.drop 2) ++
                abiEnc constructorArgs)))) := by
    simp only [List.map_cons, List.map_nil, List.flatten_cons, List.flatten_nil,
      List.append_nil]
    rw [drop0xFirst_of_take2 _ hfa1]
    have e2 : drop0xFirst (saltToHex salt).data
        = hexOfBytes (keccak256 (utf8Bytes salt.toStr)) := rfl
    have e3 : drop0xFirst
        (keccak256hex (buildBytecode constructorTypes constructorArgs contractBytecode)).data
        = hexOfBytes (keccak256 (bytesOfHex
            ((buildBytecode constructorTypes constructorArgs contractBytecode).data.drop 2))) :=
      rfl
    rw [e2, e3, hinitBytes]
    rfl
  simp only [getCreate2Address, buildCreate2Address, specCreate2Address]
  rw [hjoined]
  have hbytesJ : bytesOfHex ('f' :: 'f' :: (factoryAddress.data.drop 2 ++
      (hexOfBytes (keccak256 (utf8Bytes salt.toStr)) ++
        hexOfBytes (keccak256 (bytesOfHex (contractBytecode.data.drop 2) ++
          abiEnc constructorArgs)))))
      = 255 :: (bytesOfHex (factoryAddress.data.drop 2) ++
          (keccak256 (utf8Bytes salt.toStr) ++
            keccak256 (bytesOfHex (contractBytecode.data.drop 2) ++
              abiEnc constructorArgs))) := by
    rw [bytesOfHex_cons2,
      bytesOfHex_append _ _ (by rw [List.length_drop]; exact hfa2),
      bytesOfHex_append _ _ (by rw [hexOfBytes_length]; omega),
      bytesOfHex_hexOfBytes _ (keccak256_lt _), bytesOfHex_hexOfBytes _ (keccak256_lt _)]
    norm_num
    decide
  have hk : keccak256hex ⟨'0' :: 'x' :: ('f' :: 'f' :: (factoryAddress.data.drop 2 ++
      (hexOfBytes (keccak256 (utf8Bytes salt.toStr)) ++
        hexOfBytes (keccak256 (bytesOfHex (contractBytecode.data.drop 2) ++
          abiEnc constructorArgs)))))⟩
      = ⟨'0' :: 'x' :: hexOfBytes (keccak256 (255 :: (bytesOfHex (factoryAddress.data.drop 2) ++
          (keccak256 (utf8Bytes salt.toStr) ++
            keccak256 (bytesOfHex (contractBytecode.data.drop 2) ++
              abiEnc constructorArgs)))))⟩ := by
    show (⟨'0' :: 'x' :: hexOfBytes (keccak256 (bytesOfHex
      ('f' :: 'f' :: (factoryAddress.data.drop 2 ++
        (hexOfBytes (keccak256 (utf8Bytes salt.toStr)) ++
          hexOfBytes (keccak256 (bytesOfHex (contractBytecode.data.drop 2) ++
            abiEnc constructorArgs)))))))⟩ : String) = _
    rw [hbytesJ]
  rw [hk]
  apply String.ext
  show ('0' :: 'x' :: (sliceLast _ 40).data).map Char.toLower = _
  have houter : ∀ outer : List Nat, (∀ b ∈ outer, b < 256) → outer.length = 32 →
      (('0' :: 'x' :: (sliceLast (⟨'0' :: 'x' :: hexOfBytes outer⟩ : String) 40).data).map
        Char.toLower) = '0' :: 'x' :: hexOfBytes (outer.drop 12) := by
    intro outer hlt hlen
    have hdata : (sliceLast (⟨'0' :: 'x' :: hexOfBytes outer⟩ : String) 40).data
        = hexOfBytes (outer.drop 12) := by
      show List.drop (('0' :: 'x' :: hexOfBytes outer).length - 40)
        ('0' :: 'x' :: hexOfBytes outer) = _
      have hl : ('0' :: 'x' :: hexOfBytes outer).length = 66 := by
        simp [hexOfBytes_length, hlen]
      rw [hl]
      show List.drop 24 (hexOfBytes outer) = _
      rw [show (24 : Nat) = 2 * 12 from rfl, hexOfBytes_drop]
    rw [hdata, List.map_cons, List.map_cons,
      hexOfBytes_toLower _ (fun b hb => hlt b (List.drop_subset _ _ hb)),
      show Char.toLower '0' = '0' from by decide, show Char.toLower 'x' = 'x' from by decide]
  rw [houter _ (keccak256_lt _) (keccak256_length _), ← List.append_assoc]
  rfl

theorem C1_witness :
    isHexShaped "0xffffffffffffffffffffffffffffffffffffffff" ∧ isHexShaped "0x6080" ∧
    getCreate2Address "0xffffffffffffffffffffffffffffffffffffffff" (.str "s") "0x6080" [] []
      = specCreate2Address "0xffffffffffffffffffffffffffffffffffffffff" (.str "s")
          "0x6080" [] [] :=
  ⟨by decide, by decide,
    C1_getCreate2Address_spec "0xffffffffffffffffffffffffffffffffffffffff" (.str "s")
      "0x6080" [] [] (by decide) (by decide)⟩

theorem C10_witness :
    ({ deployFactory := some tFactory, deployFactorySalt := some (.str "s") } :
        DeployProxyOptions).deployFactory = some tFactory ∧
    buildBytecode [] [] tImplFactory.bytecode = tImplFactory.bytecode ∧
    .create2Submitted (.str "s") tImplFactory.bytecode [] [] ∈
      (deployProxy tEnv tImplFactory (.args [])
        { deployFactory := some tFactory, deployFactorySalt := some (.str "s") }).1 :=
  ⟨rfl,
    (C10_deterministic_impl tEnv tImplFactory [] ["a"]
      { deployFactory := some tFactory, deployFactorySalt := some (.str "s") }
      tFactory (.str "s") (some "0xadmin") rfl rfl
      (fun bc sh => ⟨⟨if bc = "0x6080" then "0xtximpl" else "0xtxproxy", .ok ()⟩, rfl, rfl⟩)
      rfl rfl rfl rfl).1,
    (C10_deterministic_impl tEnv tImplFactory [] ["a"]
      { deployFactory := some tFactory, deployFactorySalt := some (.str "s") }
      tFactory (.str "s") (some "0xadmin") rfl rfl
      (fun bc sh => ⟨⟨if bc = "0x6080" then "0xtximpl" else "0xtxproxy", .ok ()⟩, rfl, rfl⟩)
      rfl rfl rfl rfl).2.1⟩

end OZ
